import Mathlib

/-!
Verification of the MOOC course-progress tracker (`server.js`, `public/app.js`).

Server side (`server.js`): an Express app over SQLite with three tables

  users    (id TEXT PRIMARY KEY, username TEXT UNIQUE NOT NULL, last_task INTEGER DEFAULT 1)
  texts    (id INTEGER PRIMARY KEY AUTOINCREMENT, user_id TEXT, task_id INTEGER,
            content TEXT, updated_at DATETIME)
  progress (user_id TEXT, task_id INTEGER, completed BOOLEAN DEFAULT FALSE,
            completion_date DATETIME, PRIMARY KEY(user_id, task_id))

We embed each table as a list of rows kept in rowid (insertion) order, and each
route handler as a pure function on this state.  Task identifiers arrive as raw
URL-path strings and SQLite stores and compares them dynamically, without the
server ever interpreting them, so the task-id column is a type parameter `τ`
with decidable equality; concrete theorems instantiate `τ` with `String` (the
type of an Express route parameter) or `Int`.

Client side (`public/app.js`, class `MOOCApp`): the autosave scheduler
(`scheduleAutoSave` / `saveCurrentText`) is embedded as a small event semantics
over the fields the code actually uses (`this.saveTimer` and the editor buffer),
and the completion flow (`completeTask`) as the advance decision it makes.
`server.js` additionally carries a second, embedded copy of the client whose
`completeTask` differs from the served one; both variants are embedded.
-/

namespace Mooc

/-- A row of the `users` table: `id TEXT PRIMARY KEY, username TEXT UNIQUE,
`last_task INTEGER DEFAULT 1`.  (`created_at` plays no role in any handler and
is omitted.) -/
structure UserRow where
  id : String
  username : String
  last_task : Int
deriving DecidableEq, Repr

/-- A row of the `texts` table.  Its primary key is the AUTOINCREMENT column
`id` (the rowid); there is no uniqueness constraint on `(user_id, task_id)`. -/
structure TextRow (τ : Type) where
  rowid : Nat
  user_id : String
  task_id : τ
  content : String
deriving DecidableEq, Repr

/-- A row of the `progress` table, `PRIMARY KEY(user_id, task_id)`.
(`completion_date` plays no role in any claim and is omitted.) -/
structure ProgressRow (τ : Type) where
  user_id : String
  task_id : τ
  completed : Bool
deriving DecidableEq, Repr

/-- The whole database.  Each list is kept in ascending rowid order: SQLite
scans these tables (which have no secondary indexes) in rowid order, so
`db.get` of an unordered `SELECT` returns the first match in list order. -/
structure ServerState (τ : Type) where
  users : List UserRow
  texts : List (TextRow τ)
  progress : List (ProgressRow τ)
  nextTextRowid : Nat
deriving DecidableEq, Repr

/-- The freshly created database (`CREATE TABLE IF NOT EXISTS ...`). -/
def initState (τ : Type) : ServerState τ := ⟨[], [], [], 1⟩

/-- A signed JWT.  `jwt.sign({ userId }, JWT_SECRET)` puts exactly the
`userId` in the payload; we model the signed token by that payload. -/
structure Token where
  userId : String
deriving DecidableEq, Repr

/-- `jwt.sign({ userId }, JWT_SECRET, { expiresIn: '30d' })`. -/
def jwtSign (userId : String) : Token := ⟨userId⟩

/-- The `verifyToken` middleware: on a token with a valid signature it sets
`req.userId = decoded.userId`.  (Missing/expired/forged tokens are rejected
with 401 before any handler runs; protected handlers below therefore take the
resolved identity of a successfully verified token.) -/
def verifyToken (t : Token) : String := t.userId

/-- Outcome of `POST /api/auth/register`. -/
inductive RegisterResult where
  /-- 400: `Username must be at least 3 characters`. -/
  | validationError
  /-- 409: `Username already exists` (a `UNIQUE constraint failed` insert). -/
  | conflictError
  /-- 200: `{ token, username, userId, lastTask: 1 }`. -/
  | ok (token : Token) (username : String) (userId : String) (lastTask : Int)
deriving DecidableEq, Repr

/-- `POST /api/auth/register`.  `userId` is the fresh `uuidv4()`.  The handler
rejects usernames shorter than 3 characters (`!username || username.length < 3`;
for a string, `!username` is truthy exactly on `""`, which has length `0 < 3`),
then runs `INSERT INTO users (id, username) VALUES (?, ?)`, which fails with a
`UNIQUE constraint failed` error — reported as 409 — iff a row already has this
`id` or this `username`; `last_task` takes its column default `1`. -/
def registerHandler {τ : Type} (userId username : String) (st : ServerState τ) :
    RegisterResult × ServerState τ :=
  if username.length < 3 then
    (.validationError, st)
  else if st.users.any (fun u => u.id == userId || u.username == username) then
    (.conflictError, st)
  else
    (.ok (jwtSign userId) username userId 1,
     { st with users := st.users ++ [⟨userId, username, 1⟩] })

/-- Outcome of `POST /api/auth/login`. -/
inductive LoginResult where
  /-- 404: `User not found`. -/
  | notFound
  /-- 200: `{ token, username, userId, lastTask }`. -/
  | ok (token : Token) (username : String) (userId : String) (lastTask : Int)
deriving DecidableEq, Repr

/-- `POST /api/auth/login`: `SELECT * FROM users WHERE username = ?`, 404 when
no row; otherwise a fresh token and `lastTask: user.last_task || 1` (`||`
replaces the falsy value `0` by `1`). -/
def loginHandler {τ : Type} (username : String) (st : ServerState τ) : LoginResult :=
  match st.users.find? (fun u => u.username == username) with
  | none => .notFound
  | some u => .ok (jwtSign u.id) u.username u.id (if u.last_task = 0 then 1 else u.last_task)

/-- `POST /api/user/last-task`: `UPDATE users SET last_task = ? WHERE id = ?`.
No range or existence validation; when no row has this id the UPDATE affects
zero rows and the handler still answers `{ success: true }`. -/
def setLastTaskHandler {τ : Type} (uid : String) (taskId : Int) (st : ServerState τ) :
    ServerState τ :=
  { st with users := st.users.map fun u =>
      if u.id == uid then { u with last_task := taskId } else u }

/-- `POST /api/tasks/:taskId/text`:
`INSERT OR REPLACE INTO texts (user_id, task_id, content, updated_at) VALUES (…)`.
The insert omits the `id` column, so AUTOINCREMENT assigns a fresh rowid; since
`id` is the table's only uniqueness constraint, `OR REPLACE` never finds a
conflicting row and the statement is a plain insert appending a new row. -/
def saveDraftHandler {τ : Type} (uid : String) (taskId : τ) (content : String)
    (st : ServerState τ) : ServerState τ :=
  { st with
      texts := st.texts ++ [⟨st.nextTextRowid, uid, taskId, content⟩],
      nextTextRowid := st.nextTextRowid + 1 }

/-- `GET /api/tasks/:taskId/text`:
`db.get('SELECT content FROM texts WHERE user_id = ? AND task_id = ?')` returns
the first matching row of the table scan (ascending rowid), and the handler
answers `result ? result.content : ''`. -/
def loadDraftHandler {τ : Type} [DecidableEq τ] (uid : String) (taskId : τ)
    (st : ServerState τ) : String :=
  match st.texts.find? (fun r => r.user_id == uid && r.task_id == taskId) with
  | some r => r.content
  | none => ""

/-- `POST /api/tasks/:taskId/complete`:
`INSERT OR REPLACE INTO progress (user_id, task_id, completed, completion_date)
VALUES (?, ?, TRUE, CURRENT_TIMESTAMP)`.  Here `(user_id, task_id)` is the
primary key, so `OR REPLACE` deletes any existing row with that key and inserts
the new one with `completed = TRUE`. -/
def completeTaskHandler {τ : Type} [DecidableEq τ] (uid : String) (taskId : τ)
    (st : ServerState τ) : ServerState τ :=
  { st with progress :=
      (st.progress.filter fun r => !(r.user_id == uid && r.task_id == taskId)) ++
      [⟨uid, taskId, true⟩] }

/-- The 200 body of `GET /api/user/progress`. -/
structure ProgressView (τ : Type) where
  username : String
  lastTask : Int
  progress : List (τ × Bool)
deriving DecidableEq, Repr

/-- `GET /api/user/progress`: `db.get` the user row by id, then `db.all`
`SELECT task_id, completed FROM progress WHERE user_id = ?`; answers
`{ username, lastTask: user.last_task || 1, progress }`.  When no user row
exists the callback dereferences `undefined` and no 200 body is produced;
modelled as `none`. -/
def getProgressHandler {τ : Type} [DecidableEq τ] (uid : String) (st : ServerState τ) :
    Option (ProgressView τ) :=
  match st.users.find? (fun u => u.id == uid) with
  | none => none
  | some u =>
      some ⟨u.username, if u.last_task = 0 then 1 else u.last_task,
            (st.progress.filter fun r => r.user_id == uid).map
              fun r => (r.task_id, r.completed)⟩

/-- One API call, for reasoning about sequences of operations.  Identities of
authenticated calls are the `req.userId` resolved by `verifyToken`.  The two
read-only calls are included so that a sequence may contain all five store
operations of the spec. -/
inductive Op (τ : Type) where
  | register (userId username : String)
  | login (username : String)
  | getProgress (uid : String)
  | setLastTask (uid : String) (taskId : Int)
  | saveDraft (uid : String) (taskId : τ) (content : String)
  | loadDraft (uid : String) (taskId : τ)
  | completeTask (uid : String) (taskId : τ)
deriving DecidableEq, Repr

/-- State effect of one API call (reads leave the database unchanged). -/
def applyOp {τ : Type} [DecidableEq τ] (st : ServerState τ) : Op τ → ServerState τ
  | .register userId username => (registerHandler userId username st).2
  | .login _ => st
  | .getProgress _ => st
  | .setLastTask uid t => setLastTaskHandler uid t st
  | .saveDraft uid t c => saveDraftHandler uid t c st
  | .loadDraft _ _ => st
  | .completeTask uid t => completeTaskHandler uid t st

/-- Run a sequence of API calls from a state. -/
def applyOps {τ : Type} [DecidableEq τ] (st : ServerState τ) (ops : List (Op τ)) :
    ServerState τ :=
  ops.foldl applyOp st

/-- `(uid, taskId)` is recorded as completed: some `progress` row carries
this key with `completed = TRUE`. -/
def completedFor {τ : Type} [DecidableEq τ] (st : ServerState τ) (uid : String)
    (taskId : τ) : Bool :=
  st.progress.any fun r => r.user_id == uid && r.task_id == taskId && r.completed

/-- The `users` rows belonging to one learner (at most one, by the id key). -/
def usersOf {τ : Type} (st : ServerState τ) (uid : String) : List UserRow :=
  st.users.filter fun u => u.id == uid

/-- The `texts` rows belonging to one learner. -/
def textsOf {τ : Type} (st : ServerState τ) (uid : String) : List (TextRow τ) :=
  st.texts.filter fun r => r.user_id == uid

/-- The `progress` rows belonging to one learner. -/
def progressOf {τ : Type} (st : ServerState τ) (uid : String) : List (ProgressRow τ) :=
  st.progress.filter fun r => r.user_id == uid

/-- A protected API request, before authentication (the task-scoped calls carry
the raw `:taskId` route value, the last-task call the JSON `taskId`). -/
inductive Req (τ : Type) where
  | getProgress
  | setLastTask (taskId : Int)
  | saveDraft (taskId : τ) (content : String)
  | loadDraft (taskId : τ)
  | completeTask (taskId : τ)
deriving DecidableEq, Repr

/-- Response body of a protected call. -/
inductive Resp (τ : Type) where
  /-- `{ success: true }`. -/
  | success
  /-- body of `GET /api/user/progress`. -/
  | progressView (v : Option (ProgressView τ))
  /-- `{ content }` of `GET /api/tasks/:taskId/text`. -/
  | content (s : String)
deriving DecidableEq, Repr

/-- Dispatch of a protected call: `verifyToken` resolves the bearer token to
`req.userId` and every handler is invoked with that identity only — the request
carries no other learner identifier. -/
def handle {τ : Type} [DecidableEq τ] (tok : Token) (r : Req τ) (st : ServerState τ) :
    ServerState τ × Resp τ :=
  let uid := verifyToken tok
  match r with
  | .getProgress => (st, .progressView (getProgressHandler uid st))
  | .setLastTask t => (setLastTaskHandler uid t st, .success)
  | .saveDraft t c => (saveDraftHandler uid t c st, .success)
  | .loadDraft t => (st, .content (loadDraftHandler uid t st))
  | .completeTask t => (completeTaskHandler uid t st, .success)

/-! ## Client: the autosave scheduler of `MOOCApp` (`public/app.js`)

The scheduler's mutable state in the code is the editor buffer
(`document.getElementById('text-editor').value`) and the single pending-timer
handle `this.saveTimer`.  We model the timer by its remaining delay in
milliseconds and drive the object with discrete events: an `input` event on the
editor (which calls `scheduleAutoSave`), a click of the save button or the
forced save at the start of `completeTask` (both call `saveCurrentText`
directly), and the passage of time (which fires a due timer, calling
`saveCurrentText`).  The observable output of an event is the list of
`POST /api/tasks/:taskId/text` bodies it issues, each carrying the buffer
content read by `saveCurrentText` at call time. -/

namespace Client

/-- `setTimeout(() => this.saveCurrentText(), 2000)`. -/
def debounceMs : Nat := 2000

/-- The scheduler's state: the editor buffer and `this.saveTimer`
(`none` = no pending timer, `some t` = a timer due in `t` ms). -/
structure SchedState where
  buffer : String
  timer : Option Nat
deriving DecidableEq, Repr

/-- Events driving the scheduler. -/
inductive Ev where
  /-- an `input` event that leaves the editor holding `s`; the listener calls
  `scheduleAutoSave()`. -/
  | edit (s : String)
  /-- a save-button click, or the `await this.saveCurrentText()` at the start
  of `completeTask()`: `saveCurrentText` is called directly. -/
  | manualSave
  /-- `ms` milliseconds pass with no other event. -/
  | elapse (ms : Nat)
deriving DecidableEq, Repr

/-- One event step, returning the new state and the save calls issued.
`scheduleAutoSave` clears any pending timer (`clearTimeout`) and arms a fresh
2000 ms one; `saveCurrentText` posts the current buffer but does NOT touch
`this.saveTimer`; a due timer fires once, calling `saveCurrentText`, and is
then spent. -/
def step (st : SchedState) : Ev → SchedState × List String
  | .edit s => ({ buffer := s, timer := some debounceMs }, [])
  | .manualSave => (st, [st.buffer])
  | .elapse ms =>
      match st.timer with
      | none => (st, [])
      | some t =>
          if ms < t then ({ st with timer := some (t - ms) }, [])
          else ({ st with timer := none }, [st.buffer])

/-- Run a sequence of events, concatenating the save calls in issue order. -/
def run (st : SchedState) : List Ev → SchedState × List String
  | [] => (st, [])
  | e :: es =>
      let p := step st e
      let q := run p.1 es
      (q.1, p.2 ++ q.2)

/-- An edit burst: each `(c, d)` is an `input` event leaving content `c`,
followed by `d` ms of quiet before the next event. -/
def burstTrace : List (String × Nat) → List Ev
  | [] => []
  | (c, d) :: rest => Ev.edit c :: Ev.elapse d :: burstTrace rest

/-! ## Client: the completion flow of `MOOCApp.completeTask`

On a 200 from `POST /api/tasks/:taskId/complete`, the served client
(`public/app.js`) runs `if (this.currentTask < 19) { this.loadTask(this.currentTask + 1); }`
— switching at once, with no timer.  The embedded client copy carried inside
`server.js` instead runs
`if (this.currentTask < 19) { setTimeout(() => { this.loadTask(this.currentTask + 1); }, 2000); }`.
Both are embedded as the advance decision: `some (nextTask, delayMs)` when an
automatic switch is scheduled, `none` when not. -/

/-- Advance decision of `completeTask` in the served `public/app.js`:
`loadTask(currentTask + 1)` is invoked directly (delay 0) when
`currentTask < 19`. -/
def completeAdvance (currentTask : Nat) : Option (Nat × Nat) :=
  if currentTask < 19 then some (currentTask + 1, 0) else none

/-- Advance decision of `completeTask` in the client copy embedded in
`server.js`: `setTimeout(..., 2000)` when `currentTask < 19`. -/
def embeddedCompleteAdvance (currentTask : Nat) : Option (Nat × Nat) :=
  if currentTask < 19 then some (currentTask + 1, 2000) else none

end Client

/-!
## Claims
-/

/-- C1: the claimed draft round-trip fails.  The first save of `"a"` for
`("u", "1")` does round-trip, but a second save of `"b"` appends a second
`texts` row instead of overwriting (the table's only key is the AUTOINCREMENT
`id`), and `db.get` returns the first row of the scan — so `loadDraft` still
answers `"a"`: the last writer does not win. -/
theorem c1_last_writer_loses :
    loadDraftHandler "u" "1"
        (applyOps (initState String) [Op.saveDraft "u" "1" "a"]) = "a"
    ∧ loadDraftHandler "u" "1"
        (applyOps (initState String)
          [Op.saveDraft "u" "1" "a", Op.saveDraft "u" "1" "b"]) = "a"
    ∧ "a" ≠ "b" := by decide

/-- C2: the at-most-one-Draft-row invariant fails.  Two `saveDraft` calls for
the same `(learnerId, taskId)` leave two `texts` rows for that key, because the
schema has no uniqueness constraint on `(user_id, task_id)` and
`INSERT OR REPLACE` therefore never replaces. -/
theorem c2_duplicate_draft_rows :
    ((applyOps (initState String)
        [Op.saveDraft "u" "1" "a", Op.saveDraft "u" "1" "b"]).texts.filter
      fun r => r.user_id == "u" && r.task_id == "1").length = 2 := by decide

/-- C3 counterexample: a manual save issued while a debounced save is pending
does not cancel the pending timer — `saveCurrentText` never touches
`this.saveTimer` — so one edit burst issues two save calls. -/
theorem c3_duplicate_save_counterexample :
    Client.run { buffer := "", timer := none }
        [Client.Ev.edit "a", Client.Ev.manualSave, Client.Ev.elapse 2000]
      = ({ buffer := "a", timer := none }, ["a", "a"])
    ∧ ¬ (Client.run { buffer := "", timer := none }
          [Client.Ev.edit "a", Client.Ev.manualSave, Client.Ev.elapse 2000]).2.length ≤ 1 := by
  decide

/-- C3 amended: an edit event does cancel any previously armed timer and
re-arms the 2000 ms debounce, but a manual save (or the forced save inside
`completeTask`) issues its save call without cancelling the pending timer, so a
manual save issued while a debounced save is pending yields a duplicate save
call for the burst when the timer later fires. -/
theorem c3_manual_save_duplicates :
    (∀ (st : Client.SchedState) (s : String),
        Client.step st (Client.Ev.edit s)
          = ({ buffer := s, timer := some Client.debounceMs }, []))
    ∧ (∀ st : Client.SchedState,
        Client.step st Client.Ev.manualSave = (st, [st.buffer]))
    ∧ (∀ c : String,
        Client.run { buffer := "", timer := none }
            [Client.Ev.edit c, Client.Ev.manualSave, Client.Ev.elapse Client.debounceMs]
          = ({ buffer := c, timer := none }, [c, c])) :=
  ⟨fun _ _ => rfl, fun _ => rfl, fun _ => rfl⟩

/-- C5 counterexample: `POST /api/user/last-task` performs no range check, so
the two-request trace `register("alice")`, `setLastTask(999)` reaches a state
whose learner has `last_task = 999`, outside `[1, 19]`. -/
theorem c5_out_of_range_counterexample :
    (applyOps (initState Int) [Op.register "u1" "alice", Op.setLastTask "u1" 999]).users
      = [{ id := "u1", username := "alice", last_task := 999 }]
    ∧ ¬ ∀ u ∈ (applyOps (initState Int)
          [Op.register "u1" "alice", Op.setLastTask "u1" 999]).users,
        1 ≤ u.last_task ∧ u.last_task ≤ 19 := by decide

/-- The operation keeps `last_task` in range: it is not a `setLastTask`, or it
is one whose argument lies in `[1, 19]`. -/
def lastTaskOK {τ : Type} : Op τ → Bool
  | .setLastTask _ t => decide (1 ≤ t ∧ t ≤ 19)
  | _ => true

/-- `registerHandler` leaves `users` unchanged or appends exactly one row with
`last_task = 1` (the schema default). -/
theorem register_users_cases {τ : Type} (userId username : String) (st : ServerState τ) :
    (registerHandler userId username st).2.users = st.users
    ∨ (registerHandler userId username st).2.users
        = st.users ++ [{ id := userId, username := username, last_task := 1 }] := by
  by_cases h1 : username.length < 3
  · exact Or.inl (by simp [registerHandler, h1])
  · by_cases h2 : (st.users.any fun u => u.id == userId || u.username == username) = true
    · exact Or.inl (by simp [registerHandler, h1, h2])
    · exact Or.inr (by simp [registerHandler, h1, h2])

/-- One in-range operation preserves the range invariant on `last_task`. -/
theorem lastTask_inv_step {τ : Type} [DecidableEq τ] (st : ServerState τ) (op : Op τ)
    (hop : lastTaskOK op = true)
    (hst : ∀ u ∈ st.users, 1 ≤ u.last_task ∧ u.last_task ≤ 19) :
    ∀ u ∈ (applyOp st op).users, 1 ≤ u.last_task ∧ u.last_task ≤ 19 := by
  cases op with
  | register userId username =>
      intro u hu
      rcases register_users_cases userId username st with h | h
      · exact hst u (by rw [applyOp, h] at hu; exact hu)
      · rw [applyOp, h, List.mem_append] at hu
        rcases hu with hu | hu
        · exact hst u hu
        · simp only [List.mem_singleton] at hu
          subst hu
          exact ⟨by simp, by simp⟩
  | login _ => exact hst
  | getProgress _ => exact hst
  | loadDraft _ _ => exact hst
  | saveDraft uid t c => exact hst
  | completeTask uid t => exact hst
  | setLastTask uid t =>
      intro u hu
      simp only [applyOp, setLastTaskHandler, List.mem_map] at hu
      obtain ⟨w, hw, hwu⟩ := hu
      have ht : 1 ≤ t ∧ t ≤ 19 := of_decide_eq_true hop
      by_cases hid : (w.id == uid) = true
      · rw [if_pos hid] at hwu
        subst hwu
        exact ht
      · rw [if_neg hid] at hwu
        subst hwu
        exact hst w hw

/-- A sequence of in-range operations preserves the range invariant. -/
theorem lastTask_inv_fold {τ : Type} [DecidableEq τ] (ops : List (Op τ)) :
    ∀ st : ServerState τ, (∀ op ∈ ops, lastTaskOK op = true) →
      (∀ u ∈ st.users, 1 ≤ u.last_task ∧ u.last_task ≤ 19) →
      ∀ u ∈ (applyOps st ops).users, 1 ≤ u.last_task ∧ u.last_task ≤ 19 := by
  induction ops with
  | nil => intro st _ hst; exact hst
  | cons op ops ih =>
      intro st hops hst
      exact ih (applyOp st op) (fun o ho => hops o (by simp [ho]))
        (lastTask_inv_step st op (hops op (by simp)) hst)

/-- C5 amended: a learner is created with `lastTaskId = 1`, but `setLastTask`
stores whatever integer the request supplies, unvalidated; consequently
`lastTaskId ∈ [1, 19]` holds in every state reached by operation sequences
whose `setLastTask` arguments all lie in `[1, 19]` — and can be violated
otherwise (see the counterexample). -/
theorem c5_lastTask_range_amended {τ : Type} [DecidableEq τ] (ops : List (Op τ))
    (h : ∀ op ∈ ops, lastTaskOK op = true) :
    (∀ (userId username : String) (st : ServerState τ),
        (registerHandler userId username st).2.users = st.users
        ∨ (registerHandler userId username st).2.users
            = st.users ++ [{ id := userId, username := username, last_task := 1 }])
    ∧ ∀ u ∈ (applyOps (initState τ) ops).users,
        1 ≤ u.last_task ∧ u.last_task ≤ 19 :=
  ⟨fun userId username st => register_users_cases userId username st,
   lastTask_inv_fold ops (initState τ) h (by intro u hu; cases hu)⟩

/-- C5 amended, witnessed on the trace `register("alice")`, `setLastTask(5)`. -/
theorem c5_lastTask_range_amended_witness :
    (∀ op ∈ ([Op.register "u1" "alice", Op.setLastTask "u1" 5] : List (Op Int)),
        lastTaskOK op = true)
    ∧ ∀ u ∈ (applyOps (initState Int)
          [Op.register "u1" "alice", Op.setLastTask "u1" 5]).users,
        1 ≤ u.last_task ∧ u.last_task ≤ 19 :=
  ⟨by decide, (c5_lastTask_range_amended _ (by decide)).2⟩

/-- C7: `register` rejects usernames shorter than 3 characters with a 400 and
leaves the state unchanged; rejects an already-taken username with a 409 and
leaves the state (in particular the existing learner) unchanged; and otherwise
— given a fresh `uuidv4` id — creates the learner with `last_task = 1` and
answers with a freshly signed token and `{ username, userId, lastTask: 1 }`. -/
theorem c7_register_spec {τ : Type} (st : ServerState τ) (userId username : String) :
    (username.length < 3 → registerHandler userId username st = (.validationError, st))
    ∧ (3 ≤ username.length → (∃ u ∈ st.users, u.username = username) →
        registerHandler userId username st = (.conflictError, st))
    ∧ (3 ≤ username.length → (∀ u ∈ st.users, u.username ≠ username ∧ u.id ≠ userId) →
        registerHandler userId username st
          = (.ok (jwtSign userId) username userId 1,
             { st with users :=
                st.users ++ [{ id := userId, username := username, last_task := 1 }] })) := by
  refine ⟨fun h => by simp [registerHandler, h], fun h3 hex => ?_, fun h3 hall => ?_⟩
  · have hlt : ¬ username.length < 3 := by omega
    obtain ⟨u, hu, hun⟩ := hex
    have hany : (st.users.any fun u => u.id == userId || u.username == username) = true :=
      List.any_eq_true.mpr ⟨u, hu, by simp [hun]⟩
    simp [registerHandler, hlt, hany]
  · have hlt : ¬ username.length < 3 := by omega
    have hany : (st.users.any fun u => u.id == userId || u.username == username) = false := by
      rw [List.any_eq_false]
      intro u hu
      have h := hall u hu
      simp only [Bool.or_eq_true, beq_iff_eq]
      rintro (h1 | h2)
      · exact h.2 h1
      · exact h.1 h2
    simp [registerHandler, hlt, hany]

/-- C7, witnessed: `"ab"` is rejected as too short; registering `"bob"` twice
yields a 409 with the state unchanged; registering `"bob"` afresh creates the
learner with `last_task = 1` and returns its token. -/
theorem c7_register_spec_witness :
    registerHandler (τ := Int) "u1" "ab" (initState Int) = (.validationError, initState Int)
    ∧ registerHandler (τ := Int) "u2" "bob" (registerHandler "u1" "bob" (initState Int)).2
        = (.conflictError, (registerHandler "u1" "bob" (initState Int)).2)
    ∧ registerHandler (τ := Int) "u1" "bob" (initState Int)
        = (.ok (jwtSign "u1") "bob" "u1" 1,
           { initState Int with users := [{ id := "u1", username := "bob", last_task := 1 }] }) :=
  ⟨(c7_register_spec (initState Int) "u1" "ab").1 (by decide),
   (c7_register_spec (registerHandler "u1" "bob" (initState Int)).2 "u2" "bob").2.1
     (by decide) (by decide),
   (c7_register_spec (initState Int) "u1" "bob").2.2 (by decide) (by decide)⟩

/-- C8: an edit burst whose inner gaps are all below the 2000 ms debounce,
followed by 2000 ms of quiescence, issues exactly one save call, carrying the
content of the last edit of the burst — each edit cancels the previously armed
timer and re-arms it, and only the final timer fires. -/
theorem c8_debounce_burst (st0 : Client.SchedState) (edits : List (String × Nat))
    (c : String) (d : Nat)
    (hgaps : ∀ p ∈ edits, p.2 < Client.debounceMs) (hd : Client.debounceMs ≤ d) :
    Client.run st0 (Client.burstTrace (edits ++ [(c, d)]))
      = ({ buffer := c, timer := none }, [c]) := by
  induction edits generalizing st0 with
  | nil =>
      have hnd : ¬ d < Client.debounceMs := Nat.not_lt.mpr hd
      simp [Client.burstTrace, Client.run, Client.step, hnd]
  | cons p rest ih =>
      have hg : p.2 < Client.debounceMs := hgaps p (by simp)
      have hrest : ∀ q ∈ rest, q.2 < Client.debounceMs := fun q hq => hgaps q (by simp [hq])
      simp only [List.cons_append, Client.burstTrace, Client.run, Client.step, hg, if_pos,
        List.nil_append]
      exact ih _ hrest

/-- C8, witnessed on a three-edit burst with gaps 500 ms and 1999 ms. -/
theorem c8_debounce_burst_witness :
    Client.run { buffer := "", timer := none }
        (Client.burstTrace ([("a", 500), ("ab", 1999)] ++ [("abc", 2000)]))
      = ({ buffer := "abc", timer := none }, ["abc"]) :=
  c8_debounce_burst { buffer := "", timer := none } [("a", 500), ("ab", 1999)] "abc" 2000
    (by decide) (by decide)

/-- `find?` returns the head of the filtered list. -/
theorem find?_eq_head?_filter {α : Type _} (p : α → Bool) (l : List α) :
    l.find? p = (l.filter p).head? := by
  induction l with
  | nil => rfl
  | cons a l ih =>
      cases hp : p a
      · rw [List.find?_cons_of_neg _ (by simp [hp]), List.filter_cons_of_neg (by simp [hp]), ih]
      · rw [List.find?_cons_of_pos _ hp, List.filter_cons_of_pos hp, List.head?_cons]

/-- Finding by a conjunction of tests is finding in the pre-filtered list. -/
theorem find?_and_filter {α : Type _} (p q : α → Bool) (l : List α) :
    (l.find? fun x => p x && q x) = (l.filter p).find? q := by
  induction l with
  | nil => rfl
  | cons a l ih =>
      cases hp : p a
      · rw [List.find?_cons_of_neg _ (by simp [hp]), List.filter_cons_of_neg (by simp [hp]), ih]
      · rw [List.filter_cons_of_pos hp]
        cases hq : q a
        · rw [List.find?_cons_of_neg _ (by simp [hp, hq]),
            List.find?_cons_of_neg _ (by simp [hq]), ih]
        · rw [List.find?_cons_of_pos _ (by simp [hp, hq]), List.find?_cons_of_pos _ hq]

/-- An update of the rows keyed `A` is invisible to the rows keyed `B ≠ A`. -/
theorem filter_map_update {l : List UserRow} {A B : String} (hAB : A ≠ B) (t : Int) :
    ((l.map fun u => if u.id == A then { u with last_task := t } else u).filter
      fun u => u.id == B) = l.filter fun u => u.id == B := by
  induction l with
  | nil => rfl
  | cons a l ih =>
      simp only [beq_iff_eq] at ih
      by_cases hA : a.id = A
      · have hB : a.id ≠ B := by rw [hA]; exact hAB
        simp [List.filter_cons, hA, hB, hAB, ih]
      · by_cases hB : a.id = B
        · have hBA : ¬ B = A := hB ▸ hA
          simp [List.filter_cons, hA, hB, hBA, ih]
        · simp [List.filter_cons, hA, hB, ih]

/-- Removing only rows that fail `q` cannot change a filter implying `q`. -/
theorem filter_filter_of_imp {α : Type _} (p q : α → Bool)
    (h : ∀ a, p a = true → q a = true) (l : List α) :
    (l.filter q).filter p = l.filter p := by
  induction l with
  | nil => rfl
  | cons a l ih =>
      by_cases hq : (q a) = true
      · rw [List.filter_cons_of_pos hq]
        by_cases hp : (p a) = true
        · rw [List.filter_cons_of_pos hp, List.filter_cons_of_pos hp, ih]
        · rw [List.filter_cons_of_neg hp, List.filter_cons_of_neg hp, ih]
      · have hp : ¬ (p a) = true := fun hp => hq (h a hp)
        rw [List.filter_cons_of_neg hq, List.filter_cons_of_neg hp, ih]

/-- A save by learner `A` leaves learner `B`'s draft rows untouched. -/
theorem textsOf_saveDraft {τ : Type} [DecidableEq τ] {A B : String} (hAB : A ≠ B)
    (tid : τ) (c : String) (st : ServerState τ) :
    textsOf (saveDraftHandler A tid c st) B = textsOf st B := by
  unfold textsOf saveDraftHandler
  rw [List.filter_append]
  have h1 : (List.filter (fun r => r.user_id == B)
      [(⟨st.nextTextRowid, A, tid, c⟩ : TextRow τ)]) = [] := by simp [hAB]
  rw [h1, List.append_nil]

/-- A completion by learner `A` leaves learner `B`'s progress rows untouched. -/
theorem progressOf_completeTask {τ : Type} [DecidableEq τ] {A B : String} (hAB : A ≠ B)
    (tid : τ) (st : ServerState τ) :
    progressOf (completeTaskHandler A tid st) B = progressOf st B := by
  unfold progressOf completeTaskHandler
  rw [List.filter_append]
  have h1 : (List.filter (fun r => r.user_id == B)
      [(⟨A, tid, true⟩ : ProgressRow τ)]) = [] := by simp [hAB]
  rw [h1, List.append_nil]
  refine filter_filter_of_imp _ _ (fun r hB => ?_) st.progress
  have hrB : r.user_id = B := beq_iff_eq.mp hB
  have hA : (r.user_id == A) = false := by
    rw [hrB, beq_eq_false_iff_ne]
    exact Ne.symm hAB
  simp [hA]

/-- `GET /api/user/progress` is a function of the caller's own rows. -/
theorem getProgress_by_own {τ : Type} [DecidableEq τ] (uid : String) (st : ServerState τ) :
    getProgressHandler uid st =
      match (usersOf st uid).head? with
      | none => none
      | some u => some ⟨u.username, if u.last_task = 0 then 1 else u.last_task,
          (progressOf st uid).map fun r => (r.task_id, r.completed)⟩ := by
  unfold getProgressHandler usersOf progressOf
  rw [find?_eq_head?_filter]

/-- `GET /api/tasks/:taskId/text` is a function of the caller's own rows. -/
theorem loadDraft_by_own {τ : Type} [DecidableEq τ] (uid : String) (tid : τ)
    (st : ServerState τ) :
    loadDraftHandler uid tid st =
      match (textsOf st uid).find? (fun r => r.task_id == tid) with
      | some r => r.content
      | none => "" := by
  unfold loadDraftHandler textsOf
  rw [← find?_and_filter (fun r => r.user_id == uid) (fun r => r.task_id == tid) st.texts]

/-- C4: cross-learner isolation.  A protected call authenticated by a token
minted for learner `A` (i) never changes any `users`, `texts` or `progress` row
of a different learner `B`, and (ii) produces a response determined solely by
`A`'s own rows — two states agreeing on `A`'s rows are indistinguishable to the
caller — because every handler is scoped by the `req.userId` resolved from the
verified token and by nothing else in the request. -/
theorem c4_cross_learner_isolation {τ : Type} [DecidableEq τ] (A B : String)
    (hAB : A ≠ B) (r : Req τ) (st st2 : ServerState τ) :
    (usersOf (handle (jwtSign A) r st).1 B = usersOf st B
      ∧ textsOf (handle (jwtSign A) r st).1 B = textsOf st B
      ∧ progressOf (handle (jwtSign A) r st).1 B = progressOf st B)
    ∧ (usersOf st A = usersOf st2 A → textsOf st A = textsOf st2 A →
        progressOf st A = progressOf st2 A →
        (handle (jwtSign A) r st).2 = (handle (jwtSign A) r st2).2) := by
  constructor
  · cases r with
    | getProgress => exact ⟨rfl, rfl, rfl⟩
    | setLastTask t =>
        refine ⟨?_, rfl, rfl⟩
        show ((st.users.map fun u => if u.id == A then { u with last_task := t } else u).filter
          fun u => u.id == B) = st.users.filter fun u => u.id == B
        exact filter_map_update hAB t
    | saveDraft tid c => exact ⟨rfl, textsOf_saveDraft hAB tid c st, rfl⟩
    | loadDraft tid => exact ⟨rfl, rfl, rfl⟩
    | completeTask tid => exact ⟨rfl, rfl, progressOf_completeTask hAB tid st⟩
  · intro hu ht hp
    cases r with
    | getProgress =>
        show Resp.progressView (getProgressHandler A st)
          = Resp.progressView (getProgressHandler A st2)
        rw [getProgress_by_own A st, getProgress_by_own A st2, hu, hp]
    | setLastTask t => rfl
    | saveDraft tid c => rfl
    | loadDraft tid =>
        show Resp.content (loadDraftHandler A tid st)
          = Resp.content (loadDraftHandler A tid st2)
        rw [loadDraft_by_own A tid st, loadDraft_by_own A tid st2, ht]
    | completeTask tid => rfl

/-- C4, witnessed: with learners `"A"` and `"B"` registered and a secret draft
of `"B"` present, a save by `"A"` leaves `"B"`'s draft rows unchanged, and a
read by `"A"` answers identically on a second state whose `"B"` rows differ. -/
theorem c4_cross_learner_isolation_witness :
    textsOf (handle (jwtSign "A")
        (Req.saveDraft ("1" : String) "x")
        (applyOps (initState String)
          [Op.register "A" "alice", Op.register "B" "bobby",
           Op.saveDraft "B" "1" "secret"])).1 "B"
      = textsOf (applyOps (initState String)
          [Op.register "A" "alice", Op.register "B" "bobby",
           Op.saveDraft "B" "1" "secret"]) "B"
    ∧ (handle (jwtSign "A") (Req.loadDraft ("1" : String))
        (applyOps (initState String)
          [Op.register "A" "alice", Op.register "B" "bobby",
           Op.saveDraft "B" "1" "secret"])).2
      = (handle (jwtSign "A") (Req.loadDraft ("1" : String))
        (applyOps (initState String)
          [Op.register "A" "alice", Op.saveDraft "B" "1" "other"])).2 :=
  ⟨(c4_cross_learner_isolation "A" "B" (by decide) (Req.saveDraft "1" "x")
      (applyOps (initState String)
        [Op.register "A" "alice", Op.register "B" "bobby",
         Op.saveDraft "B" "1" "secret"])
      (applyOps (initState String)
        [Op.register "A" "alice", Op.register "B" "bobby",
         Op.saveDraft "B" "1" "secret"])).1.2.1,
   (c4_cross_learner_isolation "A" "B" (by decide) (Req.loadDraft "1")
      (applyOps (initState String)
        [Op.register "A" "alice", Op.register "B" "bobby",
         Op.saveDraft "B" "1" "secret"])
      (applyOps (initState String)
        [Op.register "A" "alice", Op.saveDraft "B" "1" "other"])).2
     (by decide) (by decide) (by decide)⟩

/-- `registerHandler` never touches the `progress` table. -/
theorem register_progress {τ : Type} (userId username : String) (st : ServerState τ) :
    (registerHandler userId username st).2.progress = st.progress := by
  by_cases h1 : username.length < 3
  · simp [registerHandler, h1]
  · by_cases h2 : (st.users.any fun u => u.id == userId || u.username == username) = true
    · simp [registerHandler, h1, h2]
    · simp [registerHandler, h1, h2]

/-- C6: `completeTask` marks `(L, T)` completed; a second call leaves the flag
`true`; `getProgress` then lists `(T, true)`; and no API operation ever turns a
recorded `completed = true` back off. -/
theorem c6_complete_idempotent_monotone {τ : Type} [DecidableEq τ]
    (st : ServerState τ) (uid : String) (tid : τ) :
    completedFor (completeTaskHandler uid tid st) uid tid = true
    ∧ completedFor (completeTaskHandler uid tid (completeTaskHandler uid tid st)) uid tid = true
    ∧ (∀ v, getProgressHandler uid (completeTaskHandler uid tid st) = some v →
        (tid, true) ∈ v.progress)
    ∧ ∀ (op : Op τ) (st' : ServerState τ), completedFor st' uid tid = true →
        completedFor (applyOp st' op) uid tid = true := by
  have hself : ∀ s : ServerState τ,
      completedFor (completeTaskHandler uid tid s) uid tid = true := by
    intro s
    simp [completedFor, completeTaskHandler, List.any_append]
  refine ⟨hself st, hself _, ?_, ?_⟩
  · intro v hv
    rcases hfind : ((completeTaskHandler uid tid st).users.find? fun u => u.id == uid)
      with _ | u
    · simp [getProgressHandler, hfind] at hv
    · simp only [getProgressHandler, hfind] at hv
      injection hv with hv
      subst hv
      refine List.mem_map.mpr ⟨⟨uid, tid, true⟩, ?_, rfl⟩
      simp [completeTaskHandler, List.filter_append]
  · intro op st' h
    obtain ⟨r, hr, hpred⟩ := List.any_eq_true.mp h
    cases op with
    | register userId username =>
        simp only [completedFor, applyOp, register_progress]
        exact h
    | login _ => exact h
    | getProgress _ => exact h
    | loadDraft _ _ => exact h
    | setLastTask uid2 t => exact h
    | saveDraft uid2 t2 c2 => exact h
    | completeTask uid2 tid2 =>
        simp only [Bool.and_eq_true, beq_iff_eq] at hpred
        obtain ⟨⟨hru, hrt⟩, hrc⟩ := hpred
        simp only [completedFor, applyOp, completeTaskHandler, List.any_append,
          Bool.or_eq_true]
        by_cases hk : uid = uid2 ∧ tid = tid2
        · right
          simp [hk.1, hk.2]
        · left
          have hq : (r.user_id == uid2 && r.task_id == tid2) = false := by
            rw [hru, hrt]
            by_cases huid : uid = uid2
            · have htid : tid ≠ tid2 := fun h2 => hk ⟨huid, h2⟩
              simp [htid]
            · simp [huid]
          refine List.any_eq_true.mpr ⟨r, List.mem_filter.mpr ⟨hr, ?_⟩, ?_⟩
          · simp [hq]
          · simp [hru, hrt, hrc]

/-- C6, witnessed for learner `"u"` and task `"1"` after registration. -/
theorem c6_complete_idempotent_monotone_witness :
    completedFor
        (completeTaskHandler "u" "1" (registerHandler "u" "uuu" (initState String)).2)
        "u" "1" = true
    ∧ ("1", true) ∈
        (ProgressView.mk (τ := String) "uuu" 1 [("1", true)]).progress
    ∧ completedFor
        (applyOp (completeTaskHandler "u" "1" (registerHandler "u" "uuu" (initState String)).2)
          (Op.saveDraft "u" "2" "x"))
        "u" "1" = true :=
  ⟨(c6_complete_idempotent_monotone (registerHandler "u" "uuu" (initState String)).2
      "u" "1").1,
   (c6_complete_idempotent_monotone (registerHandler "u" "uuu" (initState String)).2
      "u" "1").2.2.1 ⟨"uuu", 1, [("1", true)]⟩ (by decide),
   (c6_complete_idempotent_monotone (registerHandler "u" "uuu" (initState String)).2
      "u" "1").2.2.2 (Op.saveDraft "u" "2" "x") _ (by decide)⟩

/-- Updating rows keyed by an id that no row carries changes nothing. -/
theorem map_update_id {l : List UserRow} {uid : String} {t : Int}
    (h : ∀ u ∈ l, u.id ≠ uid) :
    (l.map fun u => if u.id == uid then { u with last_task := t } else u) = l := by
  induction l with
  | nil => rfl
  | cons a l ih =>
      have ha : ¬ ((a.id == uid) = true) := by simp [h a (by simp)]
      simp only [List.map_cons]
      rw [if_neg ha, ih fun u hu => h u (by simp [hu])]

/-- C10: the store-mutating endpoints validate nothing.  `saveDraft` and
`completeTask` answer `{ success: true }` for an arbitrary `:taskId` route
string (numeric or not, in range or not) and create a row carrying exactly that
value, and `setLastTask` answers `{ success: true }` even when no learner with
the resolved id exists, in which case its UPDATE touches no row. -/
theorem c10_no_validation (st : ServerState String) (uid uid' : String) (tid : String)
    (c : String) (v : Int) (hfresh : ∀ u ∈ st.users, u.id ≠ uid') :
    ((handle (jwtSign uid) (Req.saveDraft tid c) st).2 = Resp.success
      ∧ ∃ r ∈ (handle (jwtSign uid) (Req.saveDraft tid c) st).1.texts,
          r.user_id = uid ∧ r.task_id = tid ∧ r.content = c)
    ∧ ((handle (jwtSign uid) (Req.completeTask tid) st).2 = Resp.success
      ∧ ∃ r ∈ (handle (jwtSign uid) (Req.completeTask tid) st).1.progress,
          r.user_id = uid ∧ r.task_id = tid ∧ r.completed = true)
    ∧ ((handle (jwtSign uid') (Req.setLastTask v) st).2 = Resp.success
      ∧ (handle (jwtSign uid') (Req.setLastTask v) st).1.users = st.users) := by
  refine ⟨⟨rfl, ?_⟩, ⟨rfl, ?_⟩, ⟨rfl, ?_⟩⟩
  · refine ⟨⟨st.nextTextRowid, uid, tid, c⟩, ?_, rfl, rfl, rfl⟩
    simp [handle, saveDraftHandler, verifyToken, jwtSign]
  · refine ⟨⟨uid, tid, true⟩, ?_, rfl, rfl, rfl⟩
    simp [handle, completeTaskHandler, verifyToken, jwtSign]
  · simp only [handle, setLastTaskHandler, verifyToken, jwtSign]
    exact map_update_id hfresh

/-- C10, witnessed: with only `"u0"` registered, a `setLastTask` carrying the
unknown learner id `"ghost"` leaves the `users` table untouched. -/
theorem c10_no_validation_witness :
    (∀ u ∈ (registerHandler "u0" "alice" (initState String)).2.users, u.id ≠ "ghost")
    ∧ (handle (jwtSign "ghost") (Req.setLastTask 999)
        (registerHandler "u0" "alice" (initState String)).2).1.users
      = (registerHandler "u0" "alice" (initState String)).2.users :=
  ⟨by decide,
   (c10_no_validation (registerHandler "u0" "alice" (initState String)).2
      "u0" "ghost" "not-a-number" "x" 999 (by decide)).2.2.2⟩

/-- C9 counterexample: in the served client (`public/app.js`),
`completeTask` for task 1 calls `loadTask(2)` directly — it schedules the
switch with no delay, not after 2000 ms. -/
theorem c9_no_delay_counterexample :
    Client.completeAdvance 1 = some (2, 0)
    ∧ Client.completeAdvance 1 ≠ some (2, 2000) := by decide

/-- C9 amended: after a successful completion of task `T` with `T < 19` the
client switches to `T + 1` — immediately (delay 0) in the served
`public/app.js`, and after a 2000 ms delay in the client copy embedded in
`server.js`; for `T ≥ 19` neither variant auto-advances. -/
theorem c9_advance_amended (t : Nat) :
    (t < 19 → Client.completeAdvance t = some (t + 1, 0)
      ∧ Client.embeddedCompleteAdvance t = some (t + 1, 2000))
    ∧ (19 ≤ t → Client.completeAdvance t = none
      ∧ Client.embeddedCompleteAdvance t = none) := by
  constructor
  · intro h
    simp [Client.completeAdvance, Client.embeddedCompleteAdvance, h]
  · intro h
    simp [Client.completeAdvance, Client.embeddedCompleteAdvance, Nat.not_lt.mpr h]

/-- C9 amended, witnessed at the last two tasks of the 19-task course. -/
theorem c9_advance_amended_witness :
    Client.completeAdvance 18 = some (19, 0)
    ∧ Client.embeddedCompleteAdvance 18 = some (19, 2000)
    ∧ Client.completeAdvance 19 = none
    ∧ Client.embeddedCompleteAdvance 19 = none :=
  ⟨((c9_advance_amended 18).1 (by decide)).1,
   ((c9_advance_amended 18).1 (by decide)).2,
   ((c9_advance_amended 19).2 (by decide)).1,
   ((c9_advance_amended 19).2 (by decide)).2⟩

end Mooc
